import Mathlib

/-!
Verification of the AMM-for-PCSWMM core (CalculateAMM.py, script version B.8).

Modelling conventions:
- timestamps are exact rationals, measured in seconds (the Python code compares
  datetime values and converts differences with total_seconds(); a timedelta of
  m minutes is m * 60 seconds);
- sample values are exact rationals where the Python code performs only field
  arithmetic (the series conformer, the rainfall pre-transform, the seasonal
  temperature interpolator, the binary writer payload values);
- the AMM recursion itself uses transcendental functions (math.exp, math.log,
  0.5 ** x), so it is modelled over the reals.
-/

namespace AMM

/-- Linear interpolation between (t0, y0) and (t1, y1); mirrors lin_interp in
CalculateAMM.py (the time arguments are already denominated in seconds, so the
total_seconds() calls become the identity). -/
def lin_interp (t t0 t1 y0 y1 : ℚ) : ℚ :=
  y0 + (y1 - y0) / (t1 - t0) * (t - t0)

/-- One target-time iteration of conform_ts: the inner while-loop over the
destructively consumed source list, returning the emitted value together with
the remaining source list.  Mirrors CalculateAMM.py conform_ts: the Python code
reverses the list so that pop() removes the earliest remaining sample; here the
source is kept in chronological order and the head plays the role of the
earliest remaining sample.  The one-element and empty cases correspond to the
two trailing if-branches of the loop body (which also run when the while loop
exits without emitting). -/
def conformStep : List (ℚ × ℚ) → ℚ → ℚ × List (ℚ × ℚ)
  | [], _ => (0, [])
  | [a], _ => (a.2, [])
  | a :: b :: rest, dt =>
    if b.1 ≤ dt then conformStep (b :: rest) dt
    else if a.1 = dt then (a.2, a :: b :: rest)
    else if a.1 < dt then (lin_interp dt a.1 b.1 a.2 b.2, a :: b :: rest)
    else (0, a :: b :: rest)

/-- conform_ts: resample the source series ts onto the target times out_times.
Mirrors CalculateAMM.py conform_ts (lines 1490-1530). -/
def conform_ts (ts : List (ℚ × ℚ)) : List ℚ → List ℚ
  | [] => []
  | dt :: rest => (conformStep ts dt).1 :: conform_ts (conformStep ts dt).2 rest

theorem conformStep_before (a b : ℚ × ℚ) (rest : List (ℚ × ℚ)) (dt : ℚ)
    (ha : dt < a.1) (hb : dt < b.1) :
    conformStep (a :: b :: rest) dt = (0, a :: b :: rest) := by
  simp only [conformStep]
  rw [if_neg (not_le.mpr hb), if_neg (ne_of_gt ha), if_neg (not_lt.mpr (le_of_lt ha))]

theorem conformStep_skip (a b : ℚ × ℚ) (rest : List (ℚ × ℚ)) (dt : ℚ) (h : b.1 ≤ dt) :
    conformStep (a :: b :: rest) dt = conformStep (b :: rest) dt := by
  simp only [conformStep]
  rw [if_pos h]

/-- When every source sample time is at or before the target time, the scan
consumes the whole list and emits the last sample value. -/
theorem conformStep_after (l : List (ℚ × ℚ)) (z : ℚ × ℚ) (dt : ℚ)
    (hl : ∀ x ∈ l, x.1 ≤ dt) (hz : z.1 ≤ dt) :
    conformStep (l ++ [z]) dt = (z.2, []) := by
  induction l with
  | nil => simp [conformStep]
  | cons a l ih =>
    cases l with
    | nil =>
      simp only [List.nil_append, List.cons_append]
      rw [conformStep_skip a z [] dt hz]
      simp [conformStep]
    | cons b l' =>
      rw [List.cons_append, List.cons_append, conformStep_skip a b (l' ++ [z]) dt
        (hl b (by simp)), ← List.cons_append]
      exact ih fun x hx => hl x (List.mem_cons_of_mem a hx)

theorem conform_ts_nil_source (out : List ℚ) :
    conform_ts [] out = out.map fun _ => 0 := by
  induction out with
  | nil => rfl
  | cons dt rest ih => simp [conform_ts, conformStep, ih]

theorem conform_ts_cons (ts : List (ℚ × ℚ)) (dt : ℚ) (rest : List ℚ) :
    conform_ts ts (dt :: rest)
      = (conformStep ts dt).1 :: conform_ts (conformStep ts dt).2 rest := rfl

/-- C3 (amended): with a strictly time-ordered source of at least two samples,
every target time earlier than the first source sample yields 0; the first
target time at or after the last source sample yields the last source value;
and every subsequent target yields 0 (the destructive cursor has consumed the
series by then), not the last value again. -/
theorem conform_ts_out_of_range (f0 : ℚ × ℚ) (mid : List (ℚ × ℚ)) (z : ℚ × ℚ)
    (pre post : List ℚ) (u : ℚ)
    (hsort : List.Pairwise (fun x y : ℚ × ℚ => x.1 < y.1) (f0 :: (mid ++ [z])))
    (hpre : ∀ t ∈ pre, t < f0.1) (hu : z.1 ≤ u) :
    conform_ts (f0 :: (mid ++ [z])) (pre ++ u :: post)
      = (pre.map fun _ => 0) ++ z.2 :: (post.map fun _ => 0) := by
  induction pre with
  | nil =>
    have hall : ∀ x ∈ f0 :: mid, x.1 ≤ u := by
      intro x hx
      rcases List.mem_cons.mp hx with h | h
      · have hf : f0.1 < z.1 := (List.pairwise_cons.mp hsort).1 z (by simp)
        rw [h]
        linarith
      · have h2 := (List.pairwise_cons.mp hsort).2
        have h3 := (List.pairwise_append.mp h2).2.2 x h z (by simp)
        linarith
    have hstep : conformStep (f0 :: (mid ++ [z])) u = (z.2, []) := by
      have := conformStep_after (f0 :: mid) z u hall hu
      simpa using this
    simp [conform_ts, hstep, conform_ts_nil_source]
  | cons t pre ih =>
    have ht : t < f0.1 := hpre t (by simp)
    have hb : t < ((mid ++ [z]).headD (0, 0)).1 := by
      have hmem : (mid ++ [z]).headD (0, 0) ∈ mid ++ [z] := by
        cases mid with
        | nil => simp
        | cons m r => simp
      have := (List.pairwise_cons.mp hsort).1 _ hmem
      linarith
    have hstep : conformStep (f0 :: (mid ++ [z])) t = (0, f0 :: (mid ++ [z])) := by
      cases hm : mid ++ [z] with
      | nil => exact absurd hm (by simp)
      | cons b r =>
        have : t < b.1 := by rw [hm] at hb; simpa using hb
        exact conformStep_before f0 b r t ht this
    simp only [List.cons_append, conform_ts, hstep, List.map_cons]
    exact congrArg (0 :: ·) (ih fun s hs => hpre s (List.mem_cons_of_mem t hs))

/-- C3 counterexample to the claim as stated: for the source series
[(0,5),(1,7),(2,9)] and the two trailing targets [3,4] (both later than the
last source time 2), the conformer returns [9, 0]: only the first trailing
target repeats the last source value 9, the next one gets 0. -/
theorem conform_ts_trailing_counterexample :
    conform_ts [((0 : ℚ), (5 : ℚ)), (1, 7), (2, 9)] [3, 4] = [9, 0] ∧ (0 : ℚ) ≠ 9 := by
  constructor
  · rfl
  · norm_num

/-- Witness for conform_ts_out_of_range at a concrete input. -/
theorem conform_ts_out_of_range_witness :
    List.Pairwise (fun x y : ℚ × ℚ => x.1 < y.1) (((0 : ℚ), (5 : ℚ)) :: ([(1, 7)] ++ [(2, 9)]))
      ∧ (∀ t ∈ [(-1 : ℚ)], t < (0 : ℚ))
      ∧ (2 : ℚ) ≤ 3
      ∧ conform_ts (((0 : ℚ), (5 : ℚ)) :: ([(1, 7)] ++ [(2, 9)])) ([-1] ++ 3 :: [4])
          = (([(-1 : ℚ)]).map fun _ => 0) ++ 9 :: (([(4 : ℚ)]).map fun _ => 0) :=
  ⟨by decide, by decide, by norm_num,
    conform_ts_out_of_range ((0 : ℚ), (5 : ℚ)) [(1, 7)] (2, 9) [-1] [4] 3
      (by decide) (by decide) (by norm_num)⟩

/-- C8: conforming a strictly time-ordered series onto exactly its own
timestamp grid returns the original values in order. -/
theorem conform_ts_self (l : List (ℚ × ℚ))
    (hsort : List.Pairwise (fun x y : ℚ × ℚ => x.1 < y.1) l) :
    conform_ts l (l.map Prod.fst) = l.map Prod.snd := by
  induction l with
  | nil => rfl
  | cons a tl ih =>
    cases tl with
    | nil => simp [conform_ts, conformStep]
    | cons b r =>
      have hab : a.1 < b.1 := (List.pairwise_cons.mp hsort).1 b (by simp)
      have hstep : conformStep (a :: b :: r) a.1 = (a.2, a :: b :: r) := by
        simp only [conformStep]
        rw [if_neg (not_le.mpr hab)]
        simp
      have htail : conform_ts (a :: b :: r) ((b :: r).map Prod.fst)
          = conform_ts (b :: r) ((b :: r).map Prod.fst) := by
        rw [List.map_cons, conform_ts_cons, conform_ts_cons,
          conformStep_skip a b r b.1 le_rfl]
      calc conform_ts (a :: b :: r) ((a :: b :: r).map Prod.fst)
          = a.2 :: conform_ts (a :: b :: r) ((b :: r).map Prod.fst) := by
            rw [List.map_cons, conform_ts_cons, hstep]
        _ = a.2 :: conform_ts (b :: r) ((b :: r).map Prod.fst) := by rw [htail]
        _ = a.2 :: (b :: r).map Prod.snd := by
            rw [ih (List.pairwise_cons.mp hsort).2]
        _ = (a :: b :: r).map Prod.snd := by simp

/-- Witness for conform_ts_self at a concrete input. -/
theorem conform_ts_self_witness :
    List.Pairwise (fun x y : ℚ × ℚ => x.1 < y.1) [((0 : ℚ), (1 : ℚ)), (10, 2), (20, 3)]
      ∧ conform_ts [((0 : ℚ), (1 : ℚ)), (10, 2), (20, 3)]
          ([((0 : ℚ), (1 : ℚ)), (10, 2), (20, 3)].map Prod.fst)
        = [((0 : ℚ), (1 : ℚ)), (10, 2), (20, 3)].map Prod.snd :=
  ⟨by decide, conform_ts_self [((0 : ℚ), (1 : ℚ)), (10, 2), (20, 3)] (by decide)⟩

/-- Recording conventions supported by the rain gage (gage.RainFormat). -/
inductive RainFormat
  | CUMULATIVE
  | INTENSITY
  | VOLUME
deriving DecidableEq

/-- Inner accumulation loop shared by the INTENSITY and VOLUME branches of
conform_rainfall: walks the raw samples carrying the previous sample time and
the running cumulative depth, inserting a flat point whenever a gap larger
than 1.5 times the nominal recording interval is detected (zeros removed from
the gage record).  Mirrors CalculateAMM.py lines 1391-1418; isIntensity
selects the intensity-to-depth conversion value * step / 60. -/
def cumLoop (isIntensity : Bool) (precip_step_min conv : ℚ) :
    List (ℚ × ℚ) → ℚ → ℚ → List (ℚ × ℚ)
  | [], _, _ => []
  | (dt, v) :: rest, prev_dt, cum_rain =>
    let inc : ℚ := if isIntensity then v * precip_step_min / 60 * conv else v * conv
    let cum2 := cum_rain + inc
    (if (dt - prev_dt) / 60 > 1.5 * precip_step_min then [(dt, cum_rain)] else [])
      ++ (dt + precip_step_min * 60, cum2)
        :: cumLoop isIntensity precip_step_min conv rest dt cum2

/-- Conversion of the raw gage series to a synthetic cumulative-depth series,
per recording convention.  Mirrors CalculateAMM.py lines 1376-1418.  The
INTENSITY and VOLUME branches start from Data[0] with the initial point
(t0, 0); CUMULATIVE only rescales the reported running totals. -/
def cum_precip_list (fmt : RainFormat) (data : List (ℚ × ℚ))
    (precip_step_min conv : ℚ) : List (ℚ × ℚ) :=
  match fmt with
  | .CUMULATIVE => data.map fun tv => (tv.1, tv.2 * conv)
  | .INTENSITY =>
    match data with
    | [] => []
    | (t0, _) :: _ => (t0, 0) :: cumLoop true precip_step_min conv data t0 0
  | .VOLUME =>
    match data with
    | [] => []
    | (t0, _) :: _ => (t0, 0) :: cumLoop false precip_step_min conv data t0 0

/-- Forward differencing from cumulative back to per-step incremental volume,
clamping negative differences to 0.  Mirrors CalculateAMM.py lines 1430-1436. -/
def volFromCum : List ℚ → List ℚ
  | a :: b :: rest => max (b - a) 0 :: volFromCum (b :: rest)
  | _ => []

/-- conform_rainfall: conform gage rainfall data to a list of incremental
depth values on the calculation grid extended by one trailing step.  Mirrors
CalculateAMM.py lines 1367-1438. -/
def conform_rainfall (fmt : RainFormat) (data : List (ℚ × ℚ))
    (precip_step_min conv : ℚ) (all_t : List ℚ) (calc_step_min : ℚ) : List ℚ :=
  volFromCum (conform_ts (cum_precip_list fmt data precip_step_min conv)
    (all_t ++ [all_t.getLastD 0 + calc_step_min * 60]))

/-- VOLUME representation of a physical rain event (start time t, recording
interval s minutes, incremental depths vs): each sample is the incremental
depth at the start of its interval (start-of-interval convention). -/
def volumeRep (s : ℚ) : ℚ → List ℚ → List (ℚ × ℚ)
  | _, [] => []
  | t, v :: r => (t, v) :: volumeRep s (t + s * 60) r

/-- INTENSITY representation of the same event: each sample is the per-hour
rate over its recording interval (depth v over s minutes is v * 60 / s per
hour), start-of-interval convention. -/
def intensityRep (s : ℚ) : ℚ → List ℚ → List (ℚ × ℚ)
  | _, [] => []
  | t, v :: r => (t, v * 60 / s) :: intensityRep s (t + s * 60) r

/-- CUMULATIVE representation of the same event: the instantaneous running
total read at the start of each interval, plus a final reading one interval
after the last sample (once the last interval of rain has fallen). -/
def cumulativeRep (s : ℚ) : ℚ → ℚ → List ℚ → List (ℚ × ℚ)
  | t, acc, [] => [(t, acc)]
  | t, acc, v :: r => (t, acc) :: cumulativeRep s (t + s * 60) (acc + v) r

/-- Canonical tail of the synthetic cumulative series produced by cumLoop on a
gap-free, fixed-interval event record. -/
def tailCum (s conv : ℚ) : ℚ → ℚ → List ℚ → List (ℚ × ℚ)
  | _, _, [] => []
  | t, c, v :: r =>
    (t + s * 60, c + v * conv) :: tailCum s conv (t + s * 60) (c + v * conv) r

theorem cumLoop_volumeRep (s conv : ℚ) (hs : 0 < s) (vs : List ℚ) :
    ∀ (t prev c : ℚ), (t - prev) / 60 ≤ 1.5 * s →
      cumLoop false s conv (volumeRep s t vs) prev c = tailCum s conv t c vs := by
  induction vs with
  | nil => intro t prev c _; rfl
  | cons v r ih =>
    intro t prev c hgap
    simp only [volumeRep, cumLoop, tailCum, if_neg (not_lt.mpr hgap), Bool.false_eq_true,
      if_false, List.nil_append, List.cons.injEq, true_and]
    have harg : (t + s * 60 - t) / 60 ≤ 1.5 * s := by
      have : (t + s * 60 - t) / 60 = s := by ring
      rw [this]; linarith
    exact ih (t + s * 60) t (c + v * conv) harg

theorem cumLoop_intensityRep (s conv : ℚ) (hs : 0 < s) (vs : List ℚ) :
    ∀ (t prev c : ℚ), (t - prev) / 60 ≤ 1.5 * s →
      cumLoop true s conv (intensityRep s t vs) prev c = tailCum s conv t c vs := by
  induction vs with
  | nil => intro t prev c _; rfl
  | cons v r ih =>
    intro t prev c hgap
    have hval : v * 60 / s * s / 60 * conv = v * conv := by
      field_simp
    simp only [intensityRep, cumLoop, tailCum, if_neg (not_lt.mpr hgap), if_true,
      List.nil_append, hval, List.cons.injEq, true_and]
    have harg : (t + s * 60 - t) / 60 ≤ 1.5 * s := by
      have : (t + s * 60 - t) / 60 = s := by ring
      rw [this]; linarith
    exact ih (t + s * 60) t (c + v * conv) harg

theorem cumulativeRep_scaled (s conv : ℚ) (vs : List ℚ) :
    ∀ (t c : ℚ),
      (cumulativeRep s t c vs).map (fun tv => (tv.1, tv.2 * conv))
        = (t, c * conv) :: tailCum s conv t (c * conv) vs := by
  induction vs with
  | nil => intro t c; rfl
  | cons v r ih =>
    intro t c
    simp only [cumulativeRep, List.map_cons, tailCum, ih, List.cons.injEq, true_and,
      add_mul]

theorem cum_precip_list_rep_eq (t0 s conv : ℚ) (vs : List ℚ) (hs : 0 < s)
    (hvs : vs ≠ []) :
    cum_precip_list .VOLUME (volumeRep s t0 vs) s conv
        = cum_precip_list .CUMULATIVE (cumulativeRep s t0 0 vs) s conv
      ∧ cum_precip_list .INTENSITY (intensityRep s t0 vs) s conv
        = cum_precip_list .CUMULATIVE (cumulativeRep s t0 0 vs) s conv := by
  have hgap0 : (t0 - t0) / 60 ≤ 1.5 * s := by
    have : (t0 - t0) / 60 = 0 := by ring
    rw [this]; linarith
  cases vs with
  | nil => exact absurd rfl hvs
  | cons v r =>
    constructor
    · show (t0, 0) :: cumLoop false s conv (volumeRep s t0 (v :: r)) t0 0
        = (cumulativeRep s t0 0 (v :: r)).map fun tv => (tv.1, tv.2 * conv)
      rw [cumulativeRep_scaled, cumLoop_volumeRep s conv hs (v :: r) t0 t0 0 hgap0,
        zero_mul]
    · show (t0, 0) :: cumLoop true s conv (intensityRep s t0 (v :: r)) t0 0
        = (cumulativeRep s t0 0 (v :: r)).map fun tv => (tv.1, tv.2 * conv)
      rw [cumulativeRep_scaled, cumLoop_intensityRep s conv hs (v :: r) t0 t0 0 hgap0,
        zero_mul]

/-- C2: for every physical rain event (start time t0, recording interval s,
incremental depths vs) the three recording conventions - VOLUME, INTENSITY and
CUMULATIVE, as laid down by the representation functions above - give exactly
equal per-step incremental-volume output from conform_rainfall (exact rational
arithmetic; equality is stronger than the floating-point tolerance the claim
allows). -/
theorem conform_rainfall_format_indep (t0 s conv calc_step : ℚ) (vs : List ℚ)
    (all_t : List ℚ) (hs : 0 < s) (hvs : vs ≠ []) :
    conform_rainfall .VOLUME (volumeRep s t0 vs) s conv all_t calc_step
        = conform_rainfall .CUMULATIVE (cumulativeRep s t0 0 vs) s conv all_t calc_step
      ∧ conform_rainfall .INTENSITY (intensityRep s t0 vs) s conv all_t calc_step
        = conform_rainfall .CUMULATIVE (cumulativeRep s t0 0 vs) s conv all_t calc_step := by
  obtain ⟨h1, h2⟩ := cum_precip_list_rep_eq t0 s conv vs hs hvs
  constructor
  · unfold conform_rainfall
    rw [h1]
  · unfold conform_rainfall
    rw [h2]

/-- Witness for conform_rainfall_format_indep at a concrete input. -/
theorem conform_rainfall_format_indep_witness :
    (0 : ℚ) < 15 ∧ ([(5 : ℚ)] ≠ [])
      ∧ (conform_rainfall .VOLUME (volumeRep 15 0 [5]) 15 1 [0] 15
          = conform_rainfall .CUMULATIVE (cumulativeRep 15 0 0 [5]) 15 1 [0] 15
        ∧ conform_rainfall .INTENSITY (intensityRep 15 0 [5]) 15 1 [0] 15
          = conform_rainfall .CUMULATIVE (cumulativeRep 15 0 0 [5]) 15 1 [0] 15) :=
  ⟨by norm_num, by simp,
    conform_rainfall_format_indep 0 15 1 15 [5] [0] (by norm_num) (by simp)⟩

/-- Days-in-month table used by interp_seasonal_temp, with its January entry
of 30 (the actual calendar value is 31) and its divisible-by-4 leap rule.
Mirrors CalculateAMM.py lines 1663-1677. -/
def DaysInMonth (year : ℤ) : ℕ → ℚ
  | 1 => 30
  | 2 => 28 + (if year % 4 = 0 then 1 else 0)
  | 3 => 31
  | 4 => 30
  | 5 => 31
  | 6 => 30
  | 7 => 31
  | 8 => 31
  | 9 => 30
  | 10 => 31
  | 11 => 30
  | 12 => 31
  | _ => 0

/-- interp_seasonal_temp: mid-month-to-mid-month linear interpolation of the
twelve monthly average temperatures (the user-settings dictionary _tempDict is
the tempDict argument).  Mirrors CalculateAMM.py lines 1659-1699. -/
def interp_seasonal_temp (tempDict : ℕ → ℚ) (year : ℤ) (month day : ℕ) : ℚ :=
  let middleDay : ℤ := ⌈DaysInMonth year month / 2⌉
  let startMonthKey : ℕ :=
    if (day : ℤ) < middleDay then (if month ≠ 1 then month - 1 else 12) else month
  let endMonthKey : ℕ :=
    if (day : ℤ) < middleDay then month else (if month ≠ 12 then month + 1 else 1)
  let totalDays : ℤ :=
    ⌊DaysInMonth year startMonthKey / 2⌋ + ⌈DaysInMonth year endMonthKey / 2⌉
  let daysBetween : ℤ :=
    if startMonthKey = month then (day : ℤ) - ⌈DaysInMonth year month / 2⌉
    else (day : ℤ) + ⌊DaysInMonth year startMonthKey / 2⌋
  let percentVal : ℚ := (daysBetween : ℚ) / (totalDays : ℚ)
  percentVal * tempDict endMonthKey + (1 - percentVal) * tempDict startMonthKey

/-- C6 (code evidence): the January entry of the day-count table is 30, not
the actual 31, so the January center day is ceil(30/2) = 15 rather than
ceil(31/2) = 16.  On 2023-01-15 the interpolator therefore treats the day as
at-or-after the center and blends January toward February (returning exactly
the January average, weight 0 on February) instead of blending December
toward January as the claim requires; with T_Jan = 0 and T_Dec = 31 the
claimed interpolation gives (30/31) * 0 + (1/31) * 31 = 1 while the code
returns 0. -/
theorem interp_seasonal_temp_january_bug :
    DaysInMonth 2023 1 = 30
      ∧ ⌈DaysInMonth 2023 1 / 2⌉ = 15
      ∧ ⌈(31 : ℚ) / 2⌉ = 16
      ∧ interp_seasonal_temp (fun m => if m = 12 then 31 else 0) 2023 1 15 = 0
      ∧ (30 / 31 : ℚ) * 0 + (1 - 30 / 31) * 31 = 1
      ∧ (0 : ℚ) ≠ 1 := by
  have hmid : (⌈DaysInMonth 2023 1 / 2⌉ : ℤ) = 15 := by
    show (⌈(30 : ℚ) / 2⌉ : ℤ) = 15
    norm_num
  have h16 : (⌈(31 : ℚ) / 2⌉ : ℤ) = 16 := by
    rw [Int.ceil_eq_iff]
    constructor <;> norm_num
  refine ⟨rfl, hmid, h16, ?_, by norm_num, by norm_num⟩
  simp only [interp_seasonal_temp, hmid]
  norm_num [DaysInMonth]

/-- Overlap requirement for load_and_validate_ts: rain series need only touch
the simulation period, temperature series must cover it fully. -/
inductive OverlapKind
  | overlapPart
  | overlapFull
deriving DecidableEq

/-- load_and_validate_ts: mirrors CalculateAMM.py lines 1441-1487 as a total
function into Except (raising becomes returning an error; the message text is
abridged but, as in the source, embeds the offending series name).  The
checks run in source order: minimum sample count, overlap with the simulation
period according to expected_overlap, and strict time ordering of adjacent
samples (only when check_ordered is set, as in the source). -/
def load_and_validate_ts (ts_name : String) (data : List (ℚ × ℚ))
    (start_t end_t : ℚ) (expected_overlap : OverlapKind) (check_ordered : Bool) :
    Except String (List (ℚ × ℚ)) :=
  if data.length < 3 then
    .error ("Time Series \"" ++ ts_name
      ++ "\": this script currently does not support external data files, only user input time series data.")
  else if expected_overlap = .overlapPart
      ∧ (start_t > (data.getLastD (0, 0)).1 ∨ end_t < (data.headD (0, 0)).1) then
    .error ("Data for time series \"" ++ ts_name
      ++ "\" does not overlap the simulation period.")
  else if expected_overlap = .overlapFull
      ∧ ¬ ((data.headD (0, 0)).1 ≤ start_t ∧ (data.getLastD (0, 0)).1 ≥ end_t) then
    .error ("Data for temperature time series \"" ++ ts_name
      ++ "\" does not fully overlap the simulation period.")
  else if check_ordered = true
      ∧ ¬ List.Chain' (fun x y : ℚ × ℚ => x.1 < y.1) data then
    .error ("Data appears to be out of order for time series \"" ++ ts_name
      ++ "\". Data should be ordered or bad things might happen.")
  else
    .ok data

/-- C9: with ordering checks enabled, loading and validating a series fails
exactly when the source has fewer than 3 samples, does not overlap the
simulation horizon as its kind requires (at least touching it for rain, fully
containing it for temperature), or is not strictly increasing in time;
otherwise the series is returned unchanged.  On failure the error message
embeds the offending series name, and no partial result accompanies it. -/
theorem load_and_validate_ts_spec (ts_name : String) (data : List (ℚ × ℚ))
    (start_t end_t : ℚ) (k : OverlapKind) :
    (load_and_validate_ts ts_name data start_t end_t k true = .ok data
        ↔ ¬ (data.length < 3
            ∨ (k = .overlapPart
                ∧ (start_t > (data.getLastD (0, 0)).1 ∨ end_t < (data.headD (0, 0)).1))
            ∨ (k = .overlapFull
                ∧ ¬ ((data.headD (0, 0)).1 ≤ start_t ∧ (data.getLastD (0, 0)).1 ≥ end_t))
            ∨ ¬ List.Chain' (fun x y : ℚ × ℚ => x.1 < y.1) data))
      ∧ ((data.length < 3
            ∨ (k = .overlapPart
                ∧ (start_t > (data.getLastD (0, 0)).1 ∨ end_t < (data.headD (0, 0)).1))
            ∨ (k = .overlapFull
                ∧ ¬ ((data.headD (0, 0)).1 ≤ start_t ∧ (data.getLastD (0, 0)).1 ≥ end_t))
            ∨ ¬ List.Chain' (fun x y : ℚ × ℚ => x.1 < y.1) data)
          → ∃ u v, load_and_validate_ts ts_name data start_t end_t k true
              = .error (u ++ ts_name ++ v)) := by
  unfold load_and_validate_ts
  split_ifs with h1 h2 h3 h4
  · refine ⟨?_, fun _ => ⟨"Time Series \"",
      "\": this script currently does not support external data files, only user input time series data.",
      rfl⟩⟩
    simp only [reduceCtorEq, false_iff, not_not]
    exact Or.inl h1
  · refine ⟨?_, fun _ => ⟨"Data for time series \"",
      "\" does not overlap the simulation period.", rfl⟩⟩
    simp only [reduceCtorEq, false_iff, not_not]
    exact Or.inr (Or.inl h2)
  · refine ⟨?_, fun _ => ⟨"Data for temperature time series \"",
      "\" does not fully overlap the simulation period.", rfl⟩⟩
    simp only [reduceCtorEq, false_iff, not_not]
    exact Or.inr (Or.inr (Or.inl h3))
  · refine ⟨?_, fun _ => ⟨"Data appears to be out of order for time series \"",
      "\". Data should be ordered or bad things might happen.", rfl⟩⟩
    simp only [reduceCtorEq, false_iff, not_not]
    exact Or.inr (Or.inr (Or.inr h4.2))
  · have hchain : List.Chain' (fun x y : ℚ × ℚ => x.1 < y.1) data := by
      by_contra hc
      exact h4 ⟨rfl, hc⟩
    refine ⟨?_, ?_⟩
    · simp only [Except.ok.injEq, true_iff, eq_self_iff_true]
      rintro (h | h | h | h)
      · exact h1 h
      · exact h2 h
      · exact h3 h
      · exact h hchain
    · rintro (h | h | h | h)
      · exact absurd h h1
      · exact absurd h h2
      · exact absurd h h3
      · exact absurd hchain h

/-- Witness for load_and_validate_ts_spec at a concrete input: an empty
series trips the minimum-sample check and the error message embeds the
series name. -/
theorem load_and_validate_ts_spec_witness :
    ∃ u v, load_and_validate_ts "G1" [] 0 10 .overlapPart true
      = .error (u ++ "G1" ++ v) :=
  (load_and_validate_ts_spec "G1" [] 0 10 .overlapPart).2 (Or.inl (by decide))

/-- Tagged field written to the tsb binary stream.  Integer and string fields
are fully determined; float fields carry the exact rational value the source
passes to struct.pack (IEEE-754 rounding is below the granularity of this
model, which tracks byte layout and the values written).  strChars models one
_write_chars call: an int32 byte length followed by the UTF-8 bytes. -/
inductive TSBField
  | i32 (n : ℤ)
  | i64 (n : ℤ)
  | f32 (v : ℚ)
  | f64 (v : ℚ)
  | strChars (s : String)
deriving DecidableEq

/-- Number of bytes each field occupies in the stream (the BYTE4/BYTE8
bookkeeping of the source; a string field occupies 4 length bytes plus its
UTF-8 bytes). -/
def TSBField.byteSize : TSBField → ℕ
  | .i32 _ => 4
  | .i64 _ => 8
  | .f32 _ => 4
  | .f64 _ => 8
  | .strChars s => 4 + s.utf8ByteSize

/-- Total byte size of a field list. -/
def totalSize (l : List TSBField) : ℕ := (l.map TSBField.byteSize).sum

/-- Little-endian two-complement byte encoding of an int32, modelling
struct.pack with format "<i". -/
def pack_i32 (n : ℤ) : List ℕ :=
  [(n % 2 ^ 32).toNat % 256, (n % 2 ^ 32).toNat / 256 % 256,
   (n % 2 ^ 32).toNat / 65536 % 256, (n % 2 ^ 32).toNat / 16777216 % 256]

/-- Per-series bookkeeping entry saved by write_ts for the footer. -/
structure SavedTS where
  category : String
  func : String
  unit : String
  loc : String
  position : ℕ
deriving DecidableEq

/-- Writer state: the PCSWMM epoch day offset of the run start (start_time
minus 1899-12-30, in days), the fields emitted so far, the byte position
counter self.current_pos, and the saved footer entries. -/
structure TSBState where
  start_day : ℚ
  fields : List TSBField
  current_pos : ℕ
  saved_ts : List SavedTS
deriving DecidableEq

/-- TSB constructor. -/
def tsb_init (start_day : ℚ) : TSBState := ⟨start_day, [], 0, []⟩

/-- write_header: int32 magic 518528588, int32 version 2, int32 encoding 0. -/
def write_header (st : TSBState) : TSBState :=
  { st with
    fields := st.fields ++ [.i32 518528588, .i32 2, .i32 0],
    current_pos := st.current_pos + 4 * 3 }

/-- get_time_interval from the source: 0 for a single point, else the gap
between the first two timestamps (in the timestamp units, i.e. seconds). -/
def get_time_interval (lt_t : List ℚ) : ℚ :=
  if lt_t.length = 1 then 0 else lt_t.getD 1 0 - lt_t.getD 0 0

/-- One series to be written: the four name strings, the second-denominated
timestamps and the measurement values. -/
structure TSBSeries where
  category : String
  func : String
  unit : String
  loc : String
  lt_t : List ℚ
  lt_vals : List ℚ
deriving DecidableEq

/-- write_ts: one series data block: int32 step-mode flag 1, int32 number of
points (taken from the timestamps list), float64 start time in days (first
timestamp converted from seconds to days, plus start_day), float64 interval
left in the timestamp units (seconds), then one float32 per value (times the
conversion factor, 1.0 at the repo call site).  The byte counter advances by
24 plus 4 per point; the saved footer entry records the position at which the
block started. -/
def write_ts (st : TSBState) (s : TSBSeries) (conv_f : ℚ) : TSBState :=
  { st with
    fields := st.fields
      ++ [.i32 1, .i32 (s.lt_t.length : ℤ),
          .f64 (s.lt_t.getD 0 0 / 86400 + st.start_day),
          .f64 (get_time_interval s.lt_t)]
      ++ s.lt_vals.map fun v => .f32 (v * conv_f),
    current_pos := st.current_pos + (4 * 2 + 8 * 2) + 4 * s.lt_t.length,
    saved_ts := st.saved_ts ++ [⟨s.category, s.func, s.unit, s.loc, st.current_pos⟩] }

/-- Footer fields of one saved series entry: the four length-prefixed strings
followed by the int64 data block position. -/
def entryFields (e : SavedTS) : List TSBField :=
  [.strChars e.category, .strChars e.func, .strChars e.unit, .strChars e.loc,
   .i64 (e.position : ℤ)]

/-- One iteration of the footer loop of write_footer: append the four
length-prefixed strings and the int64 block position of one saved series,
advancing the byte counter by each string size (4 plus UTF-8 length) and 8. -/
def footerStep (acc : TSBState) (ts : SavedTS) : TSBState :=
  { acc with
    fields := acc.fields ++ entryFields ts,
    current_pos := acc.current_pos
      + ((4 + ts.category.utf8ByteSize) + (4 + ts.func.utf8ByteSize)
        + (4 + ts.unit.utf8ByteSize) + (4 + ts.loc.utf8ByteSize)) + 8 }

/-- write_footer: per saved series its four length-prefixed strings and int64
block position, then the trailer: int64 offset of the footer start, int64
current position (reserved), int32 series count, int32 magic again. -/
def write_footer (st : TSBState) : TSBState :=
  let withEntries := st.saved_ts.foldl footerStep st
  { withEntries with
    fields := withEntries.fields
      ++ [.i64 (st.current_pos : ℤ), .i64 (withEntries.current_pos : ℤ),
          .i32 (st.saved_ts.length : ℤ), .i32 518528588] }

/-- Writer run as the repo performs it: header, one write_ts per series with
conversion factor 1, then the footer. -/
def tsb_write_all (start_day : ℚ) (series : List TSBSeries) : TSBState :=
  write_footer (series.foldl (fun st s => write_ts st s 1)
    (write_header (tsb_init start_day)))

/-- Byte size of one series data block as described by the claim. -/
def blockSize (s : TSBSeries) : ℕ := 24 + 4 * s.lt_vals.length

/-- Data block layout of one series as described by the claim. -/
def specBlock (start_day : ℚ) (s : TSBSeries) : List TSBField :=
  [.i32 1, .i32 (s.lt_t.length : ℤ),
   .f64 (s.lt_t.getD 0 0 / 86400 + start_day),
   .f64 (get_time_interval s.lt_t)]
    ++ s.lt_vals.map fun v => .f32 v

/-- Footer entry fields as described by the claim, with the data block byte
offsets accumulated from base. -/
def specFooter : List TSBSeries → ℕ → List TSBField
  | [], _ => []
  | s :: rest, base =>
    [.strChars s.category, .strChars s.func, .strChars s.unit, .strChars s.loc,
     .i64 (base : ℤ)] ++ specFooter rest (base + blockSize s)

/-- Expected file layout assembled from the words of the claim: header,
contiguous data blocks, footer entries whose int64 offsets equal the byte
offsets at which the corresponding data blocks begin, and the trailing 24
bytes (int64 footer start offset, int64 end position, int32 series count,
int32 magic). -/
def tsbSpec (start_day : ℚ) (series : List TSBSeries) : List TSBField :=
  let header : List TSBField := [.i32 518528588, .i32 2, .i32 0]
  let blocks := (series.map (specBlock start_day)).flatten
  let footer := specFooter series (totalSize header)
  header ++ blocks ++ footer
    ++ [.i64 (totalSize (header ++ blocks) : ℤ),
        .i64 (totalSize (header ++ blocks ++ footer) : ℤ),
        .i32 (series.length : ℤ), .i32 518528588]

/-- Footer bookkeeping entries the writer accumulates, offsets from base. -/
def savedEntries : List TSBSeries → ℕ → List SavedTS
  | [], _ => []
  | s :: rest, base =>
    ⟨s.category, s.func, s.unit, s.loc, base⟩ :: savedEntries rest (base + blockSize s)

theorem totalSize_append (l1 l2 : List TSBField) :
    totalSize (l1 ++ l2) = totalSize l1 + totalSize l2 := by
  simp [totalSize]

theorem totalSize_f32map (vals : List ℚ) (f : ℚ → ℚ) :
    totalSize (vals.map fun v => TSBField.f32 (f v)) = 4 * vals.length := by
  induction vals with
  | nil => rfl
  | cons v r ih =>
    simp only [List.map_cons, totalSize, List.sum_cons, List.length_cons,
      TSBField.byteSize] at ih ⊢
    omega

theorem savedEntries_length (series : List TSBSeries) :
    ∀ base, (savedEntries series base).length = series.length := by
  induction series with
  | nil => intro base; rfl
  | cons s rest ih => intro base; simp [savedEntries, ih]


theorem savedEntries_render (series : List TSBSeries) :
    ∀ base, ((savedEntries series base).map entryFields).flatten = specFooter series base := by
  induction series with
  | nil => intro base; rfl
  | cons s rest ih =>
    intro base
    simp [savedEntries, specFooter, entryFields, ih]

theorem totalSize_of_all4 (l : List TSBField) (h : ∀ x ∈ l, x.byteSize = 4) :
    totalSize l = 4 * l.length := by
  induction l with
  | nil => rfl
  | cons x r ih =>
    simp only [totalSize, List.map_cons, List.sum_cons, List.length_cons] at ih ⊢
    rw [h x (by simp), ih fun y hy => h y (List.mem_cons_of_mem x hy)]
    omega

theorem write_ts_fold (series : List TSBSeries) :
    ∀ (st : TSBState), (∀ s ∈ series, s.lt_t.length = s.lt_vals.length) →
      st.current_pos = totalSize st.fields →
      (series.foldl (fun a s => write_ts a s 1) st).fields
          = st.fields ++ (series.map (specBlock st.start_day)).flatten
        ∧ (series.foldl (fun a s => write_ts a s 1) st).current_pos
          = totalSize (series.foldl (fun a s => write_ts a s 1) st).fields
        ∧ (series.foldl (fun a s => write_ts a s 1) st).saved_ts
          = st.saved_ts ++ savedEntries series st.current_pos
        ∧ (series.foldl (fun a s => write_ts a s 1) st).start_day = st.start_day := by
  induction series with
  | nil =>
    intro st _ hpos
    exact ⟨by simp, hpos, by simp [savedEntries], rfl⟩
  | cons s rest ih =>
    intro st hlen hpos
    simp only [List.foldl_cons]
    have hlens : s.lt_t.length = s.lt_vals.length := hlen s (by simp)
    have hblock : [TSBField.i32 1, TSBField.i32 (s.lt_t.length : ℤ),
          TSBField.f64 (s.lt_t.getD 0 0 / 86400 + st.start_day),
          TSBField.f64 (get_time_interval s.lt_t)]
          ++ s.lt_vals.map (fun v => TSBField.f32 (v * 1))
        = specBlock st.start_day s := by
      simp [specBlock]
    have hmap4 : totalSize (s.lt_vals.map fun v => TSBField.f32 (v * 1))
        = 4 * s.lt_vals.length := by
      rw [totalSize_of_all4]
      · simp
      · intro x hx
        obtain ⟨v, hv, rfl⟩ := List.mem_map.mp hx
        rfl
    have hhdr : totalSize [TSBField.i32 1, TSBField.i32 (s.lt_t.length : ℤ),
        TSBField.f64 (s.lt_t.getD 0 0 / 86400 + st.start_day),
        TSBField.f64 (get_time_interval s.lt_t)] = 24 := rfl
    have hpos1 : (write_ts st s 1).current_pos = totalSize (write_ts st s 1).fields := by
      show st.current_pos + (4 * 2 + 8 * 2) + 4 * s.lt_t.length
        = totalSize (st.fields
          ++ [TSBField.i32 1, TSBField.i32 (s.lt_t.length : ℤ),
              TSBField.f64 (s.lt_t.getD 0 0 / 86400 + st.start_day),
              TSBField.f64 (get_time_interval s.lt_t)]
          ++ s.lt_vals.map fun v => TSBField.f32 (v * 1))
      rw [totalSize_append, totalSize_append, hhdr, hmap4, hpos]
      omega
    have hcp : (write_ts st s 1).current_pos = st.current_pos + blockSize s := by
      show st.current_pos + (4 * 2 + 8 * 2) + 4 * s.lt_t.length
        = st.current_pos + blockSize s
      rw [blockSize]
      omega
    obtain ⟨hf, hp, hs, hd⟩ := ih (write_ts st s 1)
      (fun x hx => hlen x (List.mem_cons_of_mem s hx)) hpos1
    have hday : (write_ts st s 1).start_day = st.start_day := rfl
    refine ⟨?_, hp, ?_, by rw [hd, hday]⟩
    · rw [hf, hday]
      show (st.fields
          ++ [TSBField.i32 1, TSBField.i32 (s.lt_t.length : ℤ),
              TSBField.f64 (s.lt_t.getD 0 0 / 86400 + st.start_day),
              TSBField.f64 (get_time_interval s.lt_t)]
          ++ s.lt_vals.map fun v => TSBField.f32 (v * 1))
          ++ (rest.map (specBlock st.start_day)).flatten
        = st.fields ++ ((s :: rest).map (specBlock st.start_day)).flatten
      rw [List.map_cons, List.flatten_cons, List.append_assoc, ← hblock]
      simp [List.append_assoc]
    · rw [hs, hcp]
      show (st.saved_ts ++ [⟨s.category, s.func, s.unit, s.loc, st.current_pos⟩])
          ++ savedEntries rest (st.current_pos + blockSize s)
        = st.saved_ts ++ savedEntries (s :: rest) st.current_pos
      rw [savedEntries, List.append_assoc]
      rfl

theorem footerStep_size (ts : SavedTS) :
    totalSize (entryFields ts)
      = ((4 + ts.category.utf8ByteSize) + (4 + ts.func.utf8ByteSize)
        + (4 + ts.unit.utf8ByteSize) + (4 + ts.loc.utf8ByteSize)) + 8 := by
  simp only [entryFields, totalSize, List.map_cons, List.map_nil, List.sum_cons,
    List.sum_nil, TSBField.byteSize]
  omega

theorem footer_fold (entries : List SavedTS) :
    ∀ st : TSBState,
      (entries.foldl footerStep st).fields
          = st.fields ++ (entries.map entryFields).flatten
        ∧ (entries.foldl footerStep st).current_pos
          = st.current_pos + totalSize (entries.map entryFields).flatten
        ∧ (entries.foldl footerStep st).saved_ts = st.saved_ts
        ∧ (entries.foldl footerStep st).start_day = st.start_day := by
  induction entries with
  | nil => intro st; exact ⟨by simp, by simp [totalSize], rfl, rfl⟩
  | cons e rest ih =>
    intro st
    simp only [List.foldl_cons]
    obtain ⟨gf, gp, gs, gd⟩ := ih (footerStep st e)
    refine ⟨?_, ?_, gs, gd⟩
    · rw [gf]
      show (st.fields ++ entryFields e) ++ (rest.map entryFields).flatten = _
      simp [List.append_assoc]
    · rw [gp]
      show st.current_pos
          + ((4 + e.category.utf8ByteSize) + (4 + e.func.utf8ByteSize)
            + (4 + e.unit.utf8ByteSize) + (4 + e.loc.utf8ByteSize)) + 8
          + totalSize (rest.map entryFields).flatten
        = st.current_pos + totalSize ((e :: rest).map entryFields).flatten
      rw [List.map_cons, List.flatten_cons, totalSize_append]
      have h := footerStep_size e
      omega

theorem write_footer_fields (st : TSBState) :
    (write_footer st).fields
      = st.fields ++ (st.saved_ts.map entryFields).flatten
        ++ [.i64 (st.current_pos : ℤ),
            .i64 ((st.current_pos + totalSize (st.saved_ts.map entryFields).flatten : ℕ) : ℤ),
            .i32 (st.saved_ts.length : ℤ), .i32 518528588] := by
  obtain ⟨gf, gp, gs, gd⟩ := footer_fold st.saved_ts st
  show (st.saved_ts.foldl footerStep st).fields
      ++ [.i64 (st.current_pos : ℤ), .i64 ((st.saved_ts.foldl footerStep st).current_pos : ℤ),
          .i32 (st.saved_ts.length : ℤ), .i32 518528588]
    = _
  rw [gf, gp]

/-- C7: the binary writer emits exactly the field sequence of the claim:
little-endian header int32s (magic 518528588, version 2, encoding 0); per
series a block of int32 step-mode 1, int32 sample count, float64 start time
(days since 1899-12-30 plus the first timestamp converted to days), float64
interval in the timestamp units (seconds), then the float32 values; a footer
of four int32-length-prefixed UTF-8 strings per series followed by an int64
offset equal to the byte offset at which that series data block begins; and a
final 24-byte trailer of int64 footer start offset, int64 current position,
int32 series count, int32 magic.  The second conjunct checks the
little-endian byte encoding of the int32 magic. -/
theorem tsb_write_all_spec (start_day : ℚ) (series : List TSBSeries)
    (hlen : ∀ s ∈ series, s.lt_t.length = s.lt_vals.length) :
    (tsb_write_all start_day series).fields = tsbSpec start_day series
      ∧ pack_i32 518528588 = [76, 30, 232, 30] := by
  refine ⟨?_, by decide⟩
  obtain ⟨hf, hp, hs, hd⟩ := write_ts_fold series (write_header (tsb_init start_day))
    hlen rfl
  have hs' : (series.foldl (fun a s => write_ts a s 1)
      (write_header (tsb_init start_day))).saved_ts = savedEntries series 12 := by
    rw [hs]
    rfl
  have hf' : (series.foldl (fun a s => write_ts a s 1)
      (write_header (tsb_init start_day))).fields
      = [TSBField.i32 518528588, TSBField.i32 2, TSBField.i32 0]
        ++ (series.map (specBlock start_day)).flatten := by
    rw [hf]
    rfl
  show (write_footer (series.foldl (fun a s => write_ts a s 1)
      (write_header (tsb_init start_day)))).fields = tsbSpec start_day series
  rw [write_footer_fields, hp, hs', hf', savedEntries_render series 12,
    savedEntries_length series 12, tsbSpec]
  have h12 : totalSize [TSBField.i32 518528588, TSBField.i32 2, TSBField.i32 0] = 12 :=
    rfl
  rw [h12]
  simp [totalSize_append, List.append_assoc]
  norm_cast
  simp only [totalSize, List.map_cons, List.sum_cons, List.map_append, List.sum_append]
  omega

/-- Witness for tsb_write_all_spec at a concrete input. -/
theorem tsb_write_all_spec_witness :
    (∀ s ∈ [(⟨"AMM_Subcatchments", "Runoff", "cfs", "S1", [0, 900], [1, 2]⟩ : TSBSeries)],
        s.lt_t.length = s.lt_vals.length)
      ∧ ((tsb_write_all 45000
            [⟨"AMM_Subcatchments", "Runoff", "cfs", "S1", [0, 900], [1, 2]⟩]).fields
          = tsbSpec 45000 [⟨"AMM_Subcatchments", "Runoff", "cfs", "S1", [0, 900], [1, 2]⟩]
        ∧ pack_i32 518528588 = [76, 30, 232, 30]) :=
  ⟨by decide, tsb_write_all_spec 45000
    [⟨"AMM_Subcatchments", "Runoff", "cfs", "S1", [0, 900], [1, 2]⟩] (by decide)⟩

noncomputable section

/-- Calendar fields the per-step recursion reads from the current instant
(t.Month and t.Day of the .NET DateTime). -/
structure CalDate where
  month : ℕ
  day : ℕ
deriving DecidableEq

/-- Global run constants: the calculation step in seconds and the three unit
conversion factors (flow to CMS, SHCF to 1/m, rain depth to meters) fixed at
script start from the flow-unit system. -/
structure Globals where
  calc_step_sec : ℝ
  Q_conv : ℝ
  SHCF_conv : ℝ
  rain_conv : ℝ

/-- Subcatchment parameters as AMMSub.__init__ leaves them after validation
and unit conversion: gage is the rain gage name (rain-gage identity); area in
square meters; RD/RW0/R percents as fractions; averaging times PAT/SAT in
calculation steps; half-lives HHL/AMHL in seconds; SHCF values in 1/m. -/
@[ext]
structure AMMParams where
  gage : String
  area : ℝ
  RDFast : ℝ
  RDMed : ℝ
  RDSlow : ℝ
  HotRBase : ℝ
  SpringColdRBase : ℝ
  FallColdRBase : ℝ
  PATFast : ℝ
  PATMed : ℝ
  PATSlow : ℝ
  PATBase : ℝ
  HHLFast : ℝ
  HHLMed : ℝ
  HHLSlow : ℝ
  HHLBase : ℝ
  RW0Fast : ℝ
  RW0Med : ℝ
  RW0Slow : ℝ
  AMHLFast : ℝ
  AMHLMed : ℝ
  AMHLSlow : ℝ
  SATFast : ℝ
  SATMed : ℝ
  SATSlow : ℝ
  SATBase : ℝ
  HotSHCFFast : ℝ
  HotSHCFMed : ℝ
  HotSHCFSlow : ℝ
  SpringColdSHCFFast : ℝ
  SpringColdSHCFMed : ℝ
  SpringColdSHCFSlow : ℝ
  FallColdSHCFFast : ℝ
  FallColdSHCFMed : ℝ
  FallColdSHCFSlow : ℝ
  HotTemp : ℝ
  ColdTemp : ℝ

/-- all_params: the twin fingerprint tuple - every calibratable parameter plus
the rain gage identity, excluding area.  Mirrors AMMSub.__init__ lines
412-450 in source order. -/
def AMMParams.all_params (p : AMMParams) :=
  (p.gage, p.RDFast, p.RDMed, p.RDSlow, p.PATFast, p.PATMed, p.PATSlow, p.PATBase,
   p.HHLFast, p.HHLMed, p.HHLSlow, p.HHLBase, p.RW0Fast, p.RW0Med, p.RW0Slow,
   p.AMHLFast, p.AMHLMed, p.AMHLSlow, p.SATFast, p.SATMed, p.SATSlow, p.SATBase,
   p.HotSHCFFast, p.HotSHCFMed, p.HotSHCFSlow, p.HotRBase,
   p.SpringColdSHCFFast, p.SpringColdSHCFMed, p.SpringColdSHCFSlow, p.SpringColdRBase,
   p.FallColdSHCFFast, p.FallColdSHCFMed, p.FallColdSHCFSlow, p.FallColdRBase,
   p.HotTemp, p.ColdTemp)

/-- AMMSub.MA (lines 698-708): fractional-window moving average over the
trailing portion of previousData.  real_steps = ma_lag + 1; the most recent
whole_steps samples enter with full weight and the next-oldest sample with
the fractional remainder, everything divided by real_steps.  In Python
previousData[-whole_steps:] is the last whole_steps elements and
previousData[-(whole_steps + 1)] the element just before them (an IndexError
when whole_steps + 1 exceeds the length; modelled totally by the default 0,
with the in-range property proved separately). -/
def MA {α : Type} [LinearOrderedField α] [FloorRing α]
    (previousData : List α) (ma_lag : α) : α :=
  let real_steps := ma_lag + 1
  let whole_steps := (⌊real_steps⌋).toNat
  let part_steps := real_steps - whole_steps
  (previousData.drop (previousData.length - whole_steps)).sum / real_steps
    + previousData.getD (previousData.length - (whole_steps + 1)) 0 * part_steps / real_steps

/-- AMMSub.calc_decay_constant: per-step decay factor 0.5 ** (step / HL),
with the sentinel 0.99 at HL = 0 preventing division by zero for unused
components. -/
def calc_decay_constant (g : Globals) (HL : ℝ) : ℝ :=
  if HL = 0 then 0.99 else Real.rpow 0.5 (g.calc_step_sec / HL)

/-- Derived parameters computed once at the start of AMM_run. -/
structure Derived where
  SFFast : ℝ
  SFMed : ℝ
  SFSlow : ℝ
  SFBase : ℝ
  AMRFFast : ℝ
  AMRFMed : ℝ
  AMRFSlow : ℝ
  x0 : ℝ
  k : ℝ
  maxMA : ℕ

/-- Derived-parameter computation of AMM_run (lines 456-488): decay factors
from the half-lives, the logistic midpoint and slope shared by the seasonal
blends, and maxMA, the number of pre-simulation values needed by the longest
moving-average window on the first step. -/
def AMMParams.derived (p : AMMParams) (g : Globals) : Derived where
  SFFast := calc_decay_constant g p.HHLFast
  SFMed := calc_decay_constant g p.HHLMed
  SFSlow := calc_decay_constant g p.HHLSlow
  SFBase := calc_decay_constant g p.HHLBase
  AMRFFast := calc_decay_constant g p.AMHLFast
  AMRFMed := calc_decay_constant g p.AMHLMed
  AMRFSlow := calc_decay_constant g p.AMHLSlow
  x0 := (p.ColdTemp + p.HotTemp) / 2
  k := 4.7964 / (p.ColdTemp - p.HotTemp)
  maxMA := (⌊max p.PATFast (max p.PATMed (max p.PATSlow (max p.PATBase
    (max p.SATFast (max p.SATMed (max p.SATSlow p.SATBase))))))⌋ + 1).toNat

/-- Result series of one subcatchment (the self.results dict): one value per
simulation step, appended in step order. -/
@[ext]
structure Results where
  Runoff_Total : List ℝ
  Runoff_Fast : List ℝ
  Runoff_Med : List ℝ
  Runoff_Slow : List ℝ
  Runoff_Base : List ℝ
  PC_Total : List ℝ
  PC_Fast : List ℝ
  PC_Med : List ℝ
  PC_Slow : List ℝ
  PC_Base : List ℝ
  SHCF_Fast : List ℝ
  SHCF_Med : List ℝ
  SHCF_Slow : List ℝ
  Rain : List ℝ
  Temps : List ℝ

def Results.empty : Results :=
  ⟨[], [], [], [], [], [], [], [], [], [], [], [], [], [], []⟩

/-- Per-run mutable state of AMMSub between timesteps. -/
@[ext]
structure AMMState where
  RWPrevF : ℝ
  RWPrevM : ℝ
  RWPrevS : ℝ
  RPrevB : ℝ
  QPrevF : ℝ
  QPrevM : ℝ
  QPrevS : ℝ
  QPrevB : ℝ
  curIndex : ℕ
  curavgIndex : ℕ
  previousPrecips : List ℝ
  previousTemps : List ℝ
  results : Results

/-- Hard calendar switch for the seasonal parameter set: true on Jan 1 - Jul
15 (Spring Cold parameters govern), false on Jul 16 - Dec 31 (Fall Cold).
Mirrors the condition t.Month < 7 or (t.Month == 7 and t.Day <= 15). -/
def springSeason (t : CalDate) : Bool :=
  t.month < 7 || (t.month == 7 && t.day ≤ 15)

/-- AMM_timestep (lines 533-696): one step of the per-subcatchment recursion:
fractional moving averages of rain and temperature, seasonal parameter
selection and logistic blend, antecedent-moisture recursion, flow recursion,
state advance and result recording (with unit conversion at the point of
recording only). -/
def AMM_timestep (g : Globals) (p : AMMParams) (d : Derived)
    (precip temps : List ℝ) (t : CalDate) (st : AMMState) : AMMState :=
  let MAPATFast := MA st.previousPrecips p.PATFast
  let MAPATMed := MA st.previousPrecips p.PATMed
  let MAPATSlow := MA st.previousPrecips p.PATSlow
  let MAPATBase := MA st.previousPrecips p.PATBase
  let MASATFast := MA st.previousTemps p.SATFast
  let MASATMed := MA st.previousTemps p.SATMed
  let MASATSlow := MA st.previousTemps p.SATSlow
  let MASATBase := MA st.previousTemps p.SATBase
  let ColdSHCFFast := if springSeason t then p.SpringColdSHCFFast else p.FallColdSHCFFast
  let ColdSHCFMed := if springSeason t then p.SpringColdSHCFMed else p.FallColdSHCFMed
  let ColdSHCFSlow := if springSeason t then p.SpringColdSHCFSlow else p.FallColdSHCFSlow
  let ColdRBase := if springSeason t then p.SpringColdRBase else p.FallColdRBase
  let LFast := 1.2 * (ColdSHCFFast - p.HotSHCFFast)
  let LMed := 1.2 * (ColdSHCFMed - p.HotSHCFMed)
  let LSlow := 1.2 * (ColdSHCFSlow - p.HotSHCFSlow)
  let LBase := 1.2 * (ColdRBase - p.HotRBase)
  let SHCFtFast := max (LFast / (1 + Real.exp (-1 * d.k * (MASATFast - d.x0)))
    + ColdSHCFFast - 11 / 12 * LFast) 0
  let SHCFtMed := max (LMed / (1 + Real.exp (-1 * d.k * (MASATMed - d.x0)))
    + ColdSHCFMed - 11 / 12 * LMed) 0
  let SHCFtSlow := max (LSlow / (1 + Real.exp (-1 * d.k * (MASATSlow - d.x0)))
    + ColdSHCFSlow - 11 / 12 * LSlow) 0
  let RtBase := max (LBase / (1 + Real.exp (-1 * d.k * (MASATBase - d.x0)))
    + ColdRBase - 11 / 12 * LBase) 0
  let RWtFast := (d.AMRFFast - 1) / Real.log d.AMRFFast * SHCFtFast * MAPATFast
    + d.AMRFFast * st.RWPrevF
  let RWtMed := (d.AMRFMed - 1) / Real.log d.AMRFMed * SHCFtMed * MAPATMed
    + d.AMRFMed * st.RWPrevM
  let RWtSlow := (d.AMRFSlow - 1) / Real.log d.AMRFSlow * SHCFtSlow * MAPATSlow
    + d.AMRFSlow * st.RWPrevS
  let QFast := p.area * (1 - d.SFFast) / g.calc_step_sec
    * (p.RDFast + (RWtFast + st.RWPrevF) / 2) * MAPATFast + d.SFFast * st.QPrevF
  let QMed := p.area * (1 - d.SFMed) / g.calc_step_sec
    * (p.RDMed + (RWtMed + st.RWPrevM) / 2) * MAPATMed + d.SFMed * st.QPrevM
  let QSlow := p.area * (1 - d.SFSlow) / g.calc_step_sec
    * (p.RDSlow + (RWtSlow + st.RWPrevS) / 2) * MAPATSlow + d.SFSlow * st.QPrevS
  let QBase := p.area * (1 - d.SFBase) / g.calc_step_sec
    * (RtBase + st.RPrevB) / 2 * MAPATBase + d.SFBase * st.QPrevB
  let tempValue := temps.getD st.curavgIndex 0
  let precipValue := precip.getD st.curavgIndex 0
  let FlowSum := QFast + QMed + QSlow + QBase
  let PCFast := (p.RDFast + RWtFast) * 100
  let PCMed := (p.RDMed + RWtMed) * 100
  let PCSlow := (p.RDSlow + RWtSlow) * 100
  let PCBase := RtBase * 100
  { RWPrevF := RWtFast
    RWPrevM := RWtMed
    RWPrevS := RWtSlow
    RPrevB := RtBase
    QPrevF := QFast
    QPrevM := QMed
    QPrevS := QSlow
    QPrevB := QBase
    curIndex := st.curIndex + 1
    curavgIndex := st.curavgIndex + 1
    previousPrecips := st.previousPrecips ++ [precipValue]
    previousTemps := st.previousTemps ++ [tempValue]
    results := {
      Runoff_Total := st.results.Runoff_Total ++ [FlowSum / g.Q_conv]
      Runoff_Fast := st.results.Runoff_Fast ++ [QFast / g.Q_conv]
      Runoff_Med := st.results.Runoff_Med ++ [QMed / g.Q_conv]
      Runoff_Slow := st.results.Runoff_Slow ++ [QSlow / g.Q_conv]
      Runoff_Base := st.results.Runoff_Base ++ [QBase / g.Q_conv]
      PC_Total := st.results.PC_Total ++ [PCFast + PCMed + PCSlow + PCBase]
      PC_Fast := st.results.PC_Fast ++ [PCFast]
      PC_Med := st.results.PC_Med ++ [PCMed]
      PC_Slow := st.results.PC_Slow ++ [PCSlow]
      PC_Base := st.results.PC_Base ++ [PCBase]
      SHCF_Fast := st.results.SHCF_Fast ++ [SHCFtFast / g.SHCF_conv]
      SHCF_Med := st.results.SHCF_Med ++ [SHCFtMed / g.SHCF_conv]
      SHCF_Slow := st.results.SHCF_Slow ++ [SHCFtSlow / g.SHCF_conv]
      Rain := st.results.Rain ++ [precipValue / g.rain_conv]
      Temps := st.results.Temps ++ [tempValue] } }

/-- State at the start of the first timestep (AMM_run lines 507-520):
initial wet-capture fractions, zero flows, the moving-average cursor at
maxMA, and the trailing buffers primed with the first maxMA + 1 values. -/
def AMM_init (p : AMMParams) (d : Derived) (precip temps : List ℝ) : AMMState where
  RWPrevF := p.RW0Fast
  RWPrevM := p.RW0Med
  RWPrevS := p.RW0Slow
  RPrevB := 0
  QPrevF := 0
  QPrevM := 0
  QPrevS := 0
  QPrevB := 0
  curIndex := 0
  curavgIndex := d.maxMA
  previousPrecips := precip.take (d.maxMA + 1)
  previousTemps := temps.take (d.maxMA + 1)
  results := Results.empty

/-- AMM_run (lines 455-524): derived parameters; the conformed rainfall for
the gage (the _conformed_rain cache is the function rainOf) prefixed with
maxMA zero pre-horizon values; temperatures from precalc_temps(maxMA)
(modelled by preTempsOf, a pure function of maxMA as in the source) followed
by the shared _common_temps; then one AMM_timestep per calculation instant. -/
def AMM_run (g : Globals) (p : AMMParams) (rainOf : String → List ℝ)
    (preTempsOf : ℕ → List ℝ) (commonTemps : List ℝ) (dates : List CalDate) : AMMState :=
  let d := p.derived g
  let precip := List.replicate d.maxMA 0 ++ rainOf p.gage
  let temps := preTempsOf d.maxMA ++ commonTemps
  dates.foldl (fun st t => AMM_timestep g p d precip temps t st)
    (AMM_init p d precip temps)

/-- twin_results (lines 710-735): deep-enough-copy the twin result set (the
copy is the identity in this pure model; in the source it guards the in-place
scaling) and multiply every flow series by area_self / area_twin. -/
def twin_results (selfArea : ℝ) (twinRes : Results) (twinArea : ℝ) : Results :=
  { twinRes with
    Runoff_Total := twinRes.Runoff_Total.map fun q => q * (selfArea / twinArea)
    Runoff_Fast := twinRes.Runoff_Fast.map fun q => q * (selfArea / twinArea)
    Runoff_Med := twinRes.Runoff_Med.map fun q => q * (selfArea / twinArea)
    Runoff_Slow := twinRes.Runoff_Slow.map fun q => q * (selfArea / twinArea)
    Runoff_Base := twinRes.Runoff_Base.map fun q => q * (selfArea / twinArea) }

/-- Flow-series scaling by the factor r, everything else kept. -/
def scaleResults (r : ℝ) (res : Results) : Results :=
  { res with
    Runoff_Total := res.Runoff_Total.map fun q => q * r
    Runoff_Fast := res.Runoff_Fast.map fun q => q * r
    Runoff_Med := res.Runoff_Med.map fun q => q * r
    Runoff_Slow := res.Runoff_Slow.map fun q => q * r
    Runoff_Base := res.Runoff_Base.map fun q => q * r }

/-- Area-scaling relation between the states of two parameter-twin runs: flow
state and flow series scale by r, everything else is equal. -/
def scaleState (r : ℝ) (s : AMMState) : AMMState :=
  { s with
    QPrevF := r * s.QPrevF
    QPrevM := r * s.QPrevM
    QPrevS := r * s.QPrevS
    QPrevB := r * s.QPrevB
    results := scaleResults r s.results }

set_option maxHeartbeats 1000000 in
theorem AMM_timestep_scale (g : Globals) (p : AMMParams) (a2 r : ℝ)
    (hr : a2 = r * p.area) (d : Derived) (precip temps : List ℝ) (t : CalDate)
    (st : AMMState) :
    AMM_timestep g { p with area := a2 } d precip temps t (scaleState r st)
      = scaleState r (AMM_timestep g p d precip temps t st) := by
  simp only [AMM_timestep, scaleState, scaleResults]
  apply AMMState.ext
  case RWPrevF => rfl
  case RWPrevM => rfl
  case RWPrevS => rfl
  case RPrevB => rfl
  case QPrevF => rw [hr]; ring
  case QPrevM => rw [hr]; ring
  case QPrevS => rw [hr]; ring
  case QPrevB => rw [hr]; ring
  case curIndex => rfl
  case curavgIndex => rfl
  case previousPrecips => rfl
  case previousTemps => rfl
  case results =>
    apply Results.ext
    case Runoff_Total =>
      simp only [List.map_append, List.map_cons, List.map_nil,
        List.append_cancel_left_eq, List.cons.injEq, and_true]
      rw [hr]; ring
    case Runoff_Fast =>
      simp only [List.map_append, List.map_cons, List.map_nil,
        List.append_cancel_left_eq, List.cons.injEq, and_true]
      rw [hr]; ring
    case Runoff_Med =>
      simp only [List.map_append, List.map_cons, List.map_nil,
        List.append_cancel_left_eq, List.cons.injEq, and_true]
      rw [hr]; ring
    case Runoff_Slow =>
      simp only [List.map_append, List.map_cons, List.map_nil,
        List.append_cancel_left_eq, List.cons.injEq, and_true]
      rw [hr]; ring
    case Runoff_Base =>
      simp only [List.map_append, List.map_cons, List.map_nil,
        List.append_cancel_left_eq, List.cons.injEq, and_true]
      rw [hr]; ring
    case PC_Total => rfl
    case PC_Fast => rfl
    case PC_Med => rfl
    case PC_Slow => rfl
    case PC_Base => rfl
    case SHCF_Fast => rfl
    case SHCF_Med => rfl
    case SHCF_Slow => rfl
    case Rain => rfl
    case Temps => rfl

theorem AMM_foldl_scale (g : Globals) (p : AMMParams) (a2 r : ℝ)
    (hr : a2 = r * p.area) (d : Derived) (precip temps : List ℝ) :
    ∀ (dates : List CalDate) (st : AMMState),
      dates.foldl (fun s t => AMM_timestep g { p with area := a2 } d precip temps t s)
          (scaleState r st)
        = scaleState r
            (dates.foldl (fun s t => AMM_timestep g p d precip temps t s) st) := by
  intro dates
  induction dates with
  | nil => intro st; rfl
  | cons t rest ih =>
    intro st
    rw [List.foldl_cons, List.foldl_cons,
      AMM_timestep_scale g p a2 r hr d precip temps t st, ih]

theorem AMM_run_scale (g : Globals) (p : AMMParams) (a2 r : ℝ) (hr : a2 = r * p.area)
    (rainOf : String → List ℝ) (preTempsOf : ℕ → List ℝ) (commonTemps : List ℝ)
    (dates : List CalDate) :
    AMM_run g { p with area := a2 } rainOf preTempsOf commonTemps dates
      = scaleState r (AMM_run g p rainOf preTempsOf commonTemps dates) := by
  have hinit : AMM_init { p with area := a2 } (p.derived g)
      (List.replicate (p.derived g).maxMA 0 ++ rainOf p.gage)
      (preTempsOf (p.derived g).maxMA ++ commonTemps)
      = scaleState r (AMM_init p (p.derived g)
        (List.replicate (p.derived g).maxMA 0 ++ rainOf p.gage)
        (preTempsOf (p.derived g).maxMA ++ commonTemps)) := by
    apply AMMState.ext <;>
      first
        | rfl
        | (show (0 : ℝ) = r * 0; rw [mul_zero])
  show (dates.foldl (fun st t => AMM_timestep g { p with area := a2 } (p.derived g)
      (List.replicate (p.derived g).maxMA 0 ++ rainOf p.gage)
      (preTempsOf (p.derived g).maxMA ++ commonTemps) t st)
      (AMM_init { p with area := a2 } (p.derived g)
        (List.replicate (p.derived g).maxMA 0 ++ rainOf p.gage)
        (preTempsOf (p.derived g).maxMA ++ commonTemps)))
    = scaleState r (dates.foldl (fun st t => AMM_timestep g p (p.derived g)
      (List.replicate (p.derived g).maxMA 0 ++ rainOf p.gage)
      (preTempsOf (p.derived g).maxMA ++ commonTemps) t st)
      (AMM_init p (p.derived g)
        (List.replicate (p.derived g).maxMA 0 ++ rainOf p.gage)
        (preTempsOf (p.derived g).maxMA ++ commonTemps)))
  rw [hinit]
  exact AMM_foldl_scale g p a2 r hr (p.derived g) _ _ dates _

/-- C1: for two subcatchments whose calibratable parameter tuples
(all_params: every calibratable parameter plus rain-gage identity, excluding
area) compare equal, the twin shortcut - copying the first subcatchment
result set and scaling the flow series by area_self / area_twin - produces
exactly the result set the full AMM_run recursion would produce for the
second subcatchment: all flow series scale by the exact area ratio while the
percent-capture, seasonal-factor, rainfall and temperature series agree
unscaled, so the twin-cache path and the full recursion give identical
numerical results for every measurement at every step. -/
theorem AMM_twin_equiv (g : Globals) (p q : AMMParams) (rainOf : String → List ℝ)
    (preTempsOf : ℕ → List ℝ) (commonTemps : List ℝ) (dates : List CalDate)
    (hpq : p.all_params = q.all_params) (ha : p.area ≠ 0) :
    twin_results q.area (AMM_run g p rainOf preTempsOf commonTemps dates).results p.area
      = (AMM_run g q rainOf preTempsOf commonTemps dates).results := by
  have hq : q = { p with area := q.area } := by
    simp only [AMMParams.all_params, Prod.mk.injEq] at hpq
    obtain ⟨h1, h2, h3, h4, h5, h6, h7, h8, h9, h10, h11, h12, h13, h14, h15, h16,
      h17, h18, h19, h20, h21, h22, h23, h24, h25, h26, h27, h28, h29, h30, h31,
      h32, h33, h34, h35, h36⟩ := hpq
    apply AMMParams.ext <;> simp_all
  rw [hq]
  have hr : q.area = q.area / p.area * p.area := (div_mul_cancel₀ q.area ha).symm
  rw [AMM_run_scale g p q.area (q.area / p.area) hr rainOf preTempsOf commonTemps dates]
  rfl

/-- Concrete sample parameters for witness instantiations: a valid
subcatchment (positive area, cold below hot) with all optional components
zeroed. -/
def pSample : AMMParams where
  gage := "G1"
  area := 1
  RDFast := 0.1
  RDMed := 0
  RDSlow := 0
  HotRBase := 0
  SpringColdRBase := 0
  FallColdRBase := 0
  PATFast := 0
  PATMed := 0
  PATSlow := 0
  PATBase := 0
  HHLFast := 7200
  HHLMed := 0
  HHLSlow := 0
  HHLBase := 0
  RW0Fast := 0
  RW0Med := 0
  RW0Slow := 0
  AMHLFast := 86400
  AMHLMed := 0
  AMHLSlow := 0
  SATFast := 0
  SATMed := 0
  SATSlow := 0
  SATBase := 0
  HotSHCFFast := 0
  HotSHCFMed := 0
  HotSHCFSlow := 0
  SpringColdSHCFFast := 0
  SpringColdSHCFMed := 0
  SpringColdSHCFSlow := 0
  FallColdSHCFFast := 0
  FallColdSHCFMed := 0
  FallColdSHCFSlow := 0
  HotTemp := 1
  ColdTemp := 0

/-- Concrete sample globals for witness instantiations: a 900 second step in
a metric CMS configuration. -/
def gSample : Globals where
  calc_step_sec := 900
  Q_conv := 1
  SHCF_conv := 10
  rain_conv := 0.001

/-- Witness for AMM_twin_equiv at a concrete input: a twin of pSample with
twice the area. -/
theorem AMM_twin_equiv_witness :
    pSample.all_params = ({ pSample with area := 2 } : AMMParams).all_params
      ∧ pSample.area ≠ 0
      ∧ twin_results ({ pSample with area := 2 } : AMMParams).area
          (AMM_run gSample pSample (fun _ => [0]) (fun n => List.replicate n 0) [0]
            [⟨1, 1⟩]).results pSample.area
        = (AMM_run gSample { pSample with area := 2 } (fun _ => [0])
            (fun n => List.replicate n 0) [0] [⟨1, 1⟩]).results :=
  ⟨rfl, by norm_num [pSample],
    AMM_twin_equiv gSample pSample { pSample with area := 2 } (fun _ => [0])
      (fun n => List.replicate n 0) [0] [⟨1, 1⟩] rfl (by norm_num [pSample])⟩

/-- C5: at every simulation instant the per-component seasonal value recorded
by the step is max(0, L / (1 + exp(-k (MA_temp - x0))) + cold - (11/12) L)
with L = 1.2 (cold - hot), x0 = (cold_temp + hot_temp) / 2 and k = 4.7964 /
(cold_temp - hot_temp), where cold is the Spring parameter when the instant
falls on Jan 1 - Jul 15 (springSeason) and the Fall parameter on Jul 16 -
Dec 31; MA_temp is the fractional moving average of the temperature buffer
over that component seasonal averaging time.  The SHCF series record the
value after division by the SHCF unit factor; the Base seasonal percent
capture is recorded in PC_Base times 100. -/
theorem AMM_seasonal_formula (g : Globals) (p : AMMParams) (precip temps : List ℝ)
    (t : CalDate) (st : AMMState) :
    ((AMM_timestep g p (p.derived g) precip temps t st).results.SHCF_Fast
        = st.results.SHCF_Fast
          ++ [max 0 (1.2 * ((if springSeason t then p.SpringColdSHCFFast
                else p.FallColdSHCFFast) - p.HotSHCFFast)
              / (1 + Real.exp (-(4.7964 / (p.ColdTemp - p.HotTemp))
                * (MA st.previousTemps p.SATFast - (p.ColdTemp + p.HotTemp) / 2)))
              + (if springSeason t then p.SpringColdSHCFFast else p.FallColdSHCFFast)
              - 11 / 12 * (1.2 * ((if springSeason t then p.SpringColdSHCFFast
                else p.FallColdSHCFFast) - p.HotSHCFFast))) / g.SHCF_conv])
      ∧ ((AMM_timestep g p (p.derived g) precip temps t st).results.SHCF_Med
        = st.results.SHCF_Med
          ++ [max 0 (1.2 * ((if springSeason t then p.SpringColdSHCFMed
                else p.FallColdSHCFMed) - p.HotSHCFMed)
              / (1 + Real.exp (-(4.7964 / (p.ColdTemp - p.HotTemp))
                * (MA st.previousTemps p.SATMed - (p.ColdTemp + p.HotTemp) / 2)))
              + (if springSeason t then p.SpringColdSHCFMed else p.FallColdSHCFMed)
              - 11 / 12 * (1.2 * ((if springSeason t then p.SpringColdSHCFMed
                else p.FallColdSHCFMed) - p.HotSHCFMed))) / g.SHCF_conv])
      ∧ ((AMM_timestep g p (p.derived g) precip temps t st).results.SHCF_Slow
        = st.results.SHCF_Slow
          ++ [max 0 (1.2 * ((if springSeason t then p.SpringColdSHCFSlow
                else p.FallColdSHCFSlow) - p.HotSHCFSlow)
              / (1 + Real.exp (-(4.7964 / (p.ColdTemp - p.HotTemp))
                * (MA st.previousTemps p.SATSlow - (p.ColdTemp + p.HotTemp) / 2)))
              + (if springSeason t then p.SpringColdSHCFSlow else p.FallColdSHCFSlow)
              - 11 / 12 * (1.2 * ((if springSeason t then p.SpringColdSHCFSlow
                else p.FallColdSHCFSlow) - p.HotSHCFSlow))) / g.SHCF_conv])
      ∧ ((AMM_timestep g p (p.derived g) precip temps t st).results.PC_Base
        = st.results.PC_Base
          ++ [max 0 (1.2 * ((if springSeason t then p.SpringColdRBase
                else p.FallColdRBase) - p.HotRBase)
              / (1 + Real.exp (-(4.7964 / (p.ColdTemp - p.HotTemp))
                * (MA st.previousTemps p.SATBase - (p.ColdTemp + p.HotTemp) / 2)))
              + (if springSeason t then p.SpringColdRBase else p.FallColdRBase)
              - 11 / 12 * (1.2 * ((if springSeason t then p.SpringColdRBase
                else p.FallColdRBase) - p.HotRBase))) * 100]) := by
  refine ⟨?_, ?_, ?_, ?_⟩ <;>
    · simp only [AMM_timestep, AMMParams.derived, List.append_cancel_left_eq,
        List.cons.injEq, and_true]
      rw [max_comm]
      ring_nf

/-- C4: for an averaging time L >= 0 and a buffer long enough for the lookup
(at least floor(L+1)+1 samples, the in-range condition of the Python negative
index), the moving average equals the mean over an effective window of
exactly L+1 samples: the sum of the most recent floor(L+1) samples plus the
next-oldest sample weighted by the fractional remainder (L+1) - floor(L+1),
all divided by L+1.  For non-integral L the window size floor(L+1)+1 equals
ceil(L)+1 and the oldest included sample carries nonzero weight. -/
theorem MA_effective_window (L : ℝ) (data : List ℝ) (hL : 0 ≤ L)
    (hlen : (⌊L + 1⌋).toNat + 1 ≤ data.length) :
    MA data L
        = ((data.drop (data.length - (⌊L + 1⌋).toNat)).sum
            + data.getD (data.length - ((⌊L + 1⌋).toNat + 1)) 0
              * ((L + 1) - ((⌊L + 1⌋).toNat : ℝ))) / (L + 1)
      ∧ (Int.fract L ≠ 0 →
          ((⌊L + 1⌋).toNat + 1 = (⌈L⌉).toNat + 1
            ∧ (L + 1) - ((⌊L + 1⌋).toNat : ℝ) ≠ 0)) := by
  constructor
  · simp only [MA]
    rw [div_add_div_same]
  · intro hfrac
    have hfloor : (⌊L⌋ : ℝ) < L := by
      have h1 := Int.fract_nonneg L
      have h2 : Int.fract L = L - ⌊L⌋ := rfl
      have h3 : 0 < Int.fract L := lt_of_le_of_ne h1 (Ne.symm hfrac)
      rw [h2] at h3
      linarith
    have hceil : ⌈L⌉ = ⌊L⌋ + 1 := by
      have hub := Int.ceil_le_floor_add_one L
      have hlb : ⌊L⌋ < ⌈L⌉ := Int.lt_ceil.mpr hfloor
      omega
    have hfl1 : ⌊L + 1⌋ = ⌊L⌋ + 1 := Int.floor_add_one L
    constructor
    · rw [hfl1, hceil]
    · have h0 : (0 : ℝ) ≤ L + 1 := by linarith
      have hcast : ((⌊L + 1⌋).toNat : ℝ) = ((⌊L + 1⌋ : ℤ) : ℝ) := by
        have h1 := Int.toNat_of_nonneg (Int.floor_nonneg.mpr h0)
        exact_mod_cast congrArg (Int.cast : ℤ → ℝ) h1
      rw [hcast]
      have hf : L + 1 - ((⌊L + 1⌋ : ℤ) : ℝ) = Int.fract (L + 1) := rfl
      rw [hf, show Int.fract (L + 1) = Int.fract L from Int.fract_add_one L ▸ rfl]
      exact hfrac

/-- Witness for MA_effective_window at a concrete input. -/
theorem MA_effective_window_witness :
    0 ≤ (3 / 2 : ℝ)
      ∧ (⌊(3 / 2 : ℝ) + 1⌋).toNat + 1 ≤ ([1, 2, 3, 4] : List ℝ).length
      ∧ (MA ([1, 2, 3, 4] : List ℝ) (3 / 2)
          = ((([1, 2, 3, 4] : List ℝ).drop
                (([1, 2, 3, 4] : List ℝ).length - (⌊(3 / 2 : ℝ) + 1⌋).toNat)).sum
              + ([1, 2, 3, 4] : List ℝ).getD
                  (([1, 2, 3, 4] : List ℝ).length - ((⌊(3 / 2 : ℝ) + 1⌋).toNat + 1)) 0
                * (((3 / 2 : ℝ) + 1) - ((⌊(3 / 2 : ℝ) + 1⌋).toNat : ℝ)))
            / ((3 / 2 : ℝ) + 1)
        ∧ (Int.fract (3 / 2 : ℝ) ≠ 0 →
            ((⌊(3 / 2 : ℝ) + 1⌋).toNat + 1 = (⌈(3 / 2 : ℝ)⌉).toNat + 1
              ∧ ((3 / 2 : ℝ) + 1) - ((⌊(3 / 2 : ℝ) + 1⌋).toNat : ℝ) ≠ 0))) := by
  have h2 : (⌊(3 / 2 : ℝ) + 1⌋ : ℤ) = 2 := by
    rw [Int.floor_eq_iff]
    constructor <;> norm_num
  refine ⟨by norm_num, ?_, MA_effective_window (3 / 2) [1, 2, 3, 4] (by norm_num) ?_⟩ <;>
    · rw [h2]
      decide

/-- Selector for the eight averaging-time parameters whose moving averages
the step takes (PATFast..PATBase over rain, SATFast..SATBase over
temperature). -/
inductive MAParam
  | patFast
  | patMed
  | patSlow
  | patBase
  | satFast
  | satMed
  | satSlow
  | satBase
deriving DecidableEq

/-- The selected averaging-time parameter value. -/
def MAParam.value (p : AMMParams) : MAParam → ℝ
  | .patFast => p.PATFast
  | .patMed => p.PATMed
  | .patSlow => p.PATSlow
  | .patBase => p.PATBase
  | .satFast => p.SATFast
  | .satMed => p.SATMed
  | .satSlow => p.SATSlow
  | .satBase => p.SATBase

theorem MAParam_le_max (p : AMMParams) (sel : MAParam) :
    sel.value p ≤ max p.PATFast (max p.PATMed (max p.PATSlow (max p.PATBase
      (max p.SATFast (max p.SATMed (max p.SATSlow p.SATBase)))))) := by
  cases sel <;> simp [MAParam.value, le_max_iff, le_refl]

theorem AMM_timestep_buffer_len (g : Globals) (p : AMMParams) (d : Derived)
    (precip temps : List ℝ) (t : CalDate) (st : AMMState) :
    (AMM_timestep g p d precip temps t st).previousPrecips.length
        = st.previousPrecips.length + 1
      ∧ (AMM_timestep g p d precip temps t st).previousTemps.length
        = st.previousTemps.length + 1 := by
  constructor <;> simp [AMM_timestep]

theorem AMM_foldl_buffer_len (g : Globals) (p : AMMParams) (d : Derived)
    (precip temps : List ℝ) :
    ∀ (dates : List CalDate) (st : AMMState),
      ((dates.foldl (fun s t => AMM_timestep g p d precip temps t s) st).previousPrecips.length
          = st.previousPrecips.length + dates.length)
        ∧ ((dates.foldl (fun s t => AMM_timestep g p d precip temps t s) st).previousTemps.length
          = st.previousTemps.length + dates.length) := by
  intro dates
  induction dates with
  | nil => intro st; exact ⟨rfl, rfl⟩
  | cons t rest ih =>
    intro st
    rw [List.foldl_cons]
    obtain ⟨h1, h2⟩ := ih (AMM_timestep g p d precip temps t st)
    obtain ⟨g1, g2⟩ := AMM_timestep_buffer_len g p d precip temps t st
    constructor
    · rw [h1, g1]
      simp
      omega
    · rw [h2, g2]
      simp
      omega

/-- C10: every moving-average lookup of the per-step recursion stays inside
the history buffer: for each averaging parameter P among the PAT/SAT values
(all nonnegative, as the constructor validation guarantees), after any
number of steps the precipitation and temperature buffers hold at least
floor(P+1)+1 entries - they start with maxMA+1 entries (maxMA =
floor(max of the eight parameters)+1) and grow by one per step, and
floor(P+1) <= maxMA - so the index length - (whole_steps+1) that MA reads
(Python negative index -(whole_steps+1)) never reaches past the start of
the buffer and never raises. -/
theorem MA_lookup_safe (g : Globals) (p : AMMParams) (rainOf : String → List ℝ)
    (preTempsOf : ℕ → List ℝ) (commonTemps : List ℝ) (dates : List CalDate)
    (sel : MAParam) (hnn : ∀ s : MAParam, 0 ≤ s.value p)
    (hrain : 1 ≤ (rainOf p.gage).length)
    (htemps : (preTempsOf (p.derived g).maxMA).length = (p.derived g).maxMA)
    (hct : 1 ≤ commonTemps.length) (i : ℕ) :
    (⌊sel.value p + 1⌋).toNat + 1
        ≤ (AMM_run g p rainOf preTempsOf commonTemps
            (dates.take i)).previousPrecips.length
      ∧ (⌊sel.value p + 1⌋).toNat + 1
        ≤ (AMM_run g p rainOf preTempsOf commonTemps
            (dates.take i)).previousTemps.length := by
  have hmax := MAParam_le_max p sel
  set M := max p.PATFast (max p.PATMed (max p.PATSlow (max p.PATBase
    (max p.SATFast (max p.SATMed (max p.SATSlow p.SATBase)))))) with hM
  have h0M : 0 ≤ M := le_trans (hnn sel) hmax
  have hmaxMA : (p.derived g).maxMA = (⌊M⌋ + 1).toNat := by
    rw [hM]
    rfl
  have hfl : ⌊sel.value p + 1⌋ ≤ ⌊M⌋ + 1 := by
    rw [show ⌊sel.value p + 1⌋ = ⌊sel.value p⌋ + 1 from Int.floor_add_one _]
    have h1 := Int.floor_le_floor hmax
    omega
  have hwhole : (⌊sel.value p + 1⌋).toNat ≤ (p.derived g).maxMA := by
    rw [hmaxMA]
    omega
  have hinitP : (AMM_init p (p.derived g)
      (List.replicate (p.derived g).maxMA 0 ++ rainOf p.gage)
      (preTempsOf (p.derived g).maxMA ++ commonTemps)).previousPrecips.length
      = (p.derived g).maxMA + 1 := by
    simp [AMM_init]
    omega
  have hinitT : (AMM_init p (p.derived g)
      (List.replicate (p.derived g).maxMA 0 ++ rainOf p.gage)
      (preTempsOf (p.derived g).maxMA ++ commonTemps)).previousTemps.length
      = (p.derived g).maxMA + 1 := by
    simp [AMM_init, htemps]
    omega
  obtain ⟨hl1, hl2⟩ := AMM_foldl_buffer_len g p (p.derived g)
    (List.replicate (p.derived g).maxMA 0 ++ rainOf p.gage)
    (preTempsOf (p.derived g).maxMA ++ commonTemps) (dates.take i)
    (AMM_init p (p.derived g)
      (List.replicate (p.derived g).maxMA 0 ++ rainOf p.gage)
      (preTempsOf (p.derived g).maxMA ++ commonTemps))
  constructor
  · show (⌊sel.value p + 1⌋).toNat + 1
      ≤ ((dates.take i).foldl (fun s t => AMM_timestep g p (p.derived g)
          (List.replicate (p.derived g).maxMA 0 ++ rainOf p.gage)
          (preTempsOf (p.derived g).maxMA ++ commonTemps) t s)
        (AMM_init p (p.derived g)
          (List.replicate (p.derived g).maxMA 0 ++ rainOf p.gage)
          (preTempsOf (p.derived g).maxMA ++ commonTemps))).previousPrecips.length
    rw [hl1, hinitP]
    omega
  · show (⌊sel.value p + 1⌋).toNat + 1
      ≤ ((dates.take i).foldl (fun s t => AMM_timestep g p (p.derived g)
          (List.replicate (p.derived g).maxMA 0 ++ rainOf p.gage)
          (preTempsOf (p.derived g).maxMA ++ commonTemps) t s)
        (AMM_init p (p.derived g)
          (List.replicate (p.derived g).maxMA 0 ++ rainOf p.gage)
          (preTempsOf (p.derived g).maxMA ++ commonTemps))).previousTemps.length
    rw [hl2, hinitT]
    omega

/-- Witness for MA_lookup_safe at a concrete input. -/
theorem MA_lookup_safe_witness :
    (∀ s : MAParam, 0 ≤ s.value pSample)
      ∧ 1 ≤ ((fun _ : String => [(0 : ℝ)]) pSample.gage).length
      ∧ ((fun n => List.replicate n (0 : ℝ)) (pSample.derived gSample).maxMA).length
          = (pSample.derived gSample).maxMA
      ∧ 1 ≤ ([(0 : ℝ)] : List ℝ).length
      ∧ ((⌊MAParam.patFast.value pSample + 1⌋).toNat + 1
          ≤ (AMM_run gSample pSample (fun _ : String => [(0 : ℝ)])
              (fun n => List.replicate n (0 : ℝ)) [0]
              (([⟨1, 1⟩] : List CalDate).take 1)).previousPrecips.length
        ∧ (⌊MAParam.patFast.value pSample + 1⌋).toNat + 1
          ≤ (AMM_run gSample pSample (fun _ : String => [(0 : ℝ)])
              (fun n => List.replicate n (0 : ℝ)) [0]
              (([⟨1, 1⟩] : List CalDate).take 1)).previousTemps.length) :=
  ⟨fun s => by cases s <;> norm_num [MAParam.value, pSample],
   by simp, by simp, by simp,
   MA_lookup_safe gSample pSample (fun _ : String => [(0 : ℝ)])
     (fun n => List.replicate n (0 : ℝ)) [0] [⟨1, 1⟩] MAParam.patFast
     (fun s => by cases s <;> norm_num [MAParam.value, pSample])
     (by simp) (by simp) (by simp) 1⟩

end

end AMM
